import Mathlib

/-!
Shallow embedding of the mindlink/add-in-client library
(MulticastDispatcher.ts, PostMessageAddInClient, DirectAddInClient,
createAddInClient) and proofs about its behaviour.

JavaScript values are modelled by an inductive `Value`; objects, arrays and
functions carry a reference identifier so that the strict-equality operator
(which compares those by reference, never structurally) is expressible.
Stateful methods are translated as pure state-passing functions; outward
actions (posting to the parent frame, invoking a stored continuation) are
returned as an explicit effect list.
-/

namespace AddInClient

/-- Model of a JavaScript runtime value. `fn`, `arr` and `obj` carry a heap
reference id: JS compares them by reference. -/
inductive Value where
  | undefined : Value
  | null : Value
  | bool (b : Bool) : Value
  | num (n : Int) : Value
  | str (s : String) : Value
  | fn (ref : Nat) : Value
  | arr (ref : Nat) (elems : List Value) : Value
  | obj (ref : Nat) (fields : List (String × Value)) : Value

/-- JavaScript truthiness: undefined, null, false, 0 and the empty string are
falsy; every function, array and object is truthy. -/
def Value.truthy : Value → Bool
  | .undefined => false
  | .null => false
  | .bool b => b
  | .num n => n != 0
  | .str s => s != ""
  | .fn _ => true
  | .arr _ _ => true
  | .obj _ _ => true

/-- JavaScript strict equality (the === operator): primitives by value,
functions, arrays and objects by reference only. -/
def Value.jsEq : Value → Value → Bool
  | .undefined, .undefined => true
  | .null, .null => true
  | .bool a, .bool b => a == b
  | .num a, .num b => a == b
  | .str a, .str b => a == b
  | .fn a, .fn b => a == b
  | .arr a _, .arr b _ => a == b
  | .obj a _, .obj b _ => a == b
  | _, _ => false

/-- Whether the value is a function (JS typeof x === "function"). -/
def Value.isFn : Value → Bool
  | .fn _ => true
  | _ => false

/-- Property read `v[k]` on a value: on an object, the named field (or
undefined when absent); on every other value, undefined. (The client only
reads properties of values it has already checked to be truthy, so the
null/undefined member-access TypeError is never reached.) -/
def Value.getField : Value → String → Value
  | .obj _ fs, k => ((fs.find? (fun p => p.1 == k)).map (fun p => p.2)).getD .undefined
  | _, _ => .undefined

/-- Coercion of a value used as an object property key (JS coerces keys to
strings). The client only ever uses string ids as keys; the remaining cases
follow the JS ToString rules for primitives. -/
def Value.toKey : Value → String
  | .str s => s
  | .num n => toString n
  | .bool b => toString b
  | .null => "null"
  | .undefined => "undefined"
  | .fn _ => "function"
  | .arr _ es => toString es.length
  | .obj _ _ => "[object Object]"

/-- Elements of an array value; non-arrays have none. -/
def Value.elems : Value → List Value
  | .arr _ es => es
  | _ => []

/-! ### util.ts -/

/-- Embedding of util.ts `any(array, predicate)`: scans the array left to
right and returns true at the first element matching the predicate. -/
def anyMatch (array : List Value) (predicate : Value → Bool) : Bool :=
  match array with
  | [] => false
  | current :: rest => if predicate current then true else anyMatch rest predicate

/-- Field update used by util.ts `merge`: `target[attr] = source[attr]`
replaces an existing field in place or appends a new one. -/
def setField (fields : List (String × Value)) (k : String) (v : Value) : List (String × Value) :=
  if fields.any (fun p => p.1 == k) then
    fields.map (fun p => if p.1 == k then (p.1, v) else p)
  else
    fields ++ [(k, v)]

/-- Embedding of util.ts `merge(target, source)`: when source is truthy
(modelled as `some` of its own enumerable fields), copies each of its fields
into the target in order. -/
def merge (target : List (String × Value)) (source : Option (List (String × Value))) :
    List (String × Value) :=
  match source with
  | none => target
  | some fs => fs.foldl (fun acc kv => setField acc kv.1 kv.2) target

/-! ### MulticastDispatcher.ts -/

/-- A registered handler configuration: the handler function value and the
scope it is invoked against. -/
structure HandlerConfig where
  handler : Value
  scope : Value

/-- The dispatcher's name-keyed registry of handler lists (the `handlers`
object), as an association list with unique keys. -/
abbrev Dispatcher := List (String × List HandlerConfig)

/-- The empty dispatcher (a fresh MulticastDispatcher). -/
def Dispatcher.empty : Dispatcher := []

/-- Embedding of `getHandlers`: `this.handlers[eventName]`, which is
undefined (`none`) when no list has been created for the event. -/
def Dispatcher.getHandlers (d : Dispatcher) (eventName : String) :
    Option (List HandlerConfig) :=
  (d.find? (fun p => p.1 == eventName)).map (fun p => p.2)

/-- Store a handler list under an event name, replacing an existing entry. -/
def Dispatcher.setHandlers (d : Dispatcher) (eventName : String)
    (hs : List HandlerConfig) : Dispatcher :=
  if (List.find? (fun p => p.1 == eventName) d).isSome then
    d.map (fun p => if p.1 == eventName then (p.1, hs) else p)
  else
    d ++ [(eventName, hs)]

/-- Embedding of `addHandler`: a no-op unless the handler is a truthy
function value; otherwise appends the configuration to the event's list,
creating the list if absent (`getOrCreateHandlers` then `push`). -/
def Dispatcher.addHandler (d : Dispatcher) (eventName : String)
    (handler : Value) (scope : Value) : Dispatcher :=
  if !handler.truthy || !handler.isFn then
    d
  else
    d.setHandlers eventName ((d.getHandlers eventName).getD [] ++ [⟨handler, scope⟩])

/-- The in-place removal loop of `removeHandler`: starting at index i, when
the entry at i matches both handler and scope by strict equality it is
spliced out and the index re-examined (`splice(i, 1); --i` then `++i`),
otherwise the index advances. -/
def removeLoop (handler scope : Value) (l : List HandlerConfig) (i : Nat) :
    List HandlerConfig :=
  if hlt : i < l.length then
    let existing := l.get ⟨i, hlt⟩
    if existing.handler.jsEq handler && existing.scope.jsEq scope then
      removeLoop handler scope (l.take i ++ l.drop (i + 1)) i
    else
      removeLoop handler scope l (i + 1)
  else
    l
termination_by l.length - i
decreasing_by
  · simp only [List.length_append, List.length_take, List.length_drop]
    omega
  · omega

/-- Embedding of `removeHandler`: looks up the event's list and, when
present, runs the splice loop from index 0. -/
def Dispatcher.removeHandler (d : Dispatcher) (eventName : String)
    (handler : Value) (scope : Value) : Dispatcher :=
  match d.getHandlers eventName with
  | none => d
  | some eventHandlers => d.setHandlers eventName (removeLoop handler scope eventHandlers 0)

/-- The interpretation of function references: what each registered handler
function returns, given the scope it is applied against and its argument
list. This stands for the JS heap's function table; handlers are pure in
this model, their return values being what the claims are about. -/
abbrev Interp := Nat → Value → List Value → Value

/-- Invocation `f.apply(scope, args)` of a stored handler value. Only
function values are ever stored (addHandler guards on typeof), so the
non-function case is unreachable through the dispatcher. -/
def applyFn (interp : Interp) (f : Value) (scope : Value) (args : List Value) : Value :=
  match f with
  | .fn r => interp r scope args
  | _ => .undefined

/-- The `slice()` copy of the argument array taken for each handler
invocation; copies of immutable lists are the lists themselves. -/
def sliceCopy (args : List Value) : List Value := args.map id

/-- The invocation loop of `callHandlers`: each configuration in the list,
in order, is applied to a fresh copy of the arguments, and its result pushed
onto the result array. -/
def callLoop (interp : Interp) (hs : List HandlerConfig) (args : List Value) : List Value :=
  match hs with
  | [] => []
  | h :: rest => applyFn interp h.handler h.scope (sliceCopy args) :: callLoop interp rest args

/-- Embedding of `callHandlers`: normalizes absent arguments to the empty
array (`args = args || []`), returns the empty array when no handler list
exists, and otherwise runs the invocation loop. -/
def Dispatcher.callHandlers (interp : Interp) (d : Dispatcher) (eventName : String)
    (args : Option (List Value)) : List Value :=
  let argsArr := args.getD []
  match d.getHandlers eventName with
  | none => []
  | some eventHandlers => callLoop interp eventHandlers argsArr

/-! ### PostMessageAddInClient -/

/-- A pending call registered in the callbacks table: success and failure
continuations and the scope to invoke them against. -/
structure CallbackConfig where
  success : Value
  failure : Value
  scope : Value

/-- The hash of callback ids to registered callbacks, as an association list
with unique keys. -/
abbrev Callbacks := List (String × CallbackConfig)

/-- Table read `this.callbacks[key]`. -/
def lookupCallback (cbs : Callbacks) (key : String) : Option CallbackConfig :=
  (cbs.find? (fun p => p.1 == key)).map (fun p => p.2)

/-- Table removal `delete this.callbacks[key]`. -/
def deleteCallback (cbs : Callbacks) (key : String) : Callbacks :=
  cbs.filter (fun p => p.1 != key)

/-- Table write `this.callbacks[key] = cb`. -/
def setCallback (cbs : Callbacks) (key : String) (cb : CallbackConfig) : Callbacks :=
  if cbs.any (fun p => p.1 == key) then
    cbs.map (fun p => if p.1 == key then (p.1, cb) else p)
  else
    cbs ++ [(key, cb)]

/-- The mutable state of a PostMessageAddInClient: the monotonically
increasing callback counter (starting at 1), the pending-call table and the
event dispatcher. -/
structure PMState where
  nextCallbackId : Nat
  callbacks : Callbacks
  eventDispatcher : Dispatcher

/-- The state of a freshly constructed client. -/
def PMState.initial : PMState := ⟨1, [], Dispatcher.empty⟩

/-- Outward actions of the client: posting a JSON-serialized object to the
parent frame with wildcard target origin, or invoking a stored continuation
function against a scope with arguments. -/
inductive Effect where
  | post (fields : List (String × Value)) : Effect
  | callCont (f : Value) (scope : Value) (args : List Value) : Effect

/-- The `message.result || ""` normalization of `invokeResponseCallback`:
the result payload when truthy, otherwise the empty string. -/
def responseOf (message : Value) : Value :=
  let r := message.getField "result"
  if r.truthy then r else .str ""

/-- Embedding of `invokeResponseCallback`: when the message carries a truthy
id with a registered pending call, the call is deleted from the table and
then exactly one of its continuations is invoked with the normalized result,
the success one when `message.success` is truthy, the failure one otherwise
(each only if that continuation is itself truthy). -/
def invokeResponseCallback (st : PMState) (message : Value) : PMState × List Effect :=
  let mid := message.getField "id"
  if mid.truthy then
    match lookupCallback st.callbacks mid.toKey with
    | none => (st, [])
    | some callback =>
      let response := responseOf message
      let st' := { st with callbacks := deleteCallback st.callbacks mid.toKey }
      if (message.getField "success").truthy && callback.success.truthy then
        (st', [.callCont callback.success callback.scope [response]])
      else if !(message.getField "success").truthy && callback.failure.truthy then
        (st', [.callCont callback.failure callback.scope [response]])
      else
        (st', [])
  else
    (st, [])

/-- Embedding of `isApiEvent`: the message has a truthy `event` field. -/
def isApiEvent (message : Value) : Bool := (message.getField "event").truthy

/-- Embedding of `isApiResponse`: the message has a truthy `id` field. -/
def isApiResponse (message : Value) : Bool := (message.getField "id").truthy

/-- The `apiEvent.args` value as passed to `callHandlers`: absent or falsy
args normalize to the empty array, an array contributes its elements. (A
truthy non-array would make the `slice` inside the handler loop throw in JS;
the host's event envelopes always carry an array, and this model gives that
unreachable case the empty list.) -/
def eventArgsOf (apiEvent : Value) : Option (List Value) :=
  let a := apiEvent.getField "args"
  if a.truthy then some a.elems else none

/-- Embedding of `dispatchApiEvent`: calls all handlers registered under the
event's name with the event's args; when the event carries a truthy id, a
single acknowledgement `{eventId, stopEvent}` is posted to the parent, with
stopEvent true exactly when some handler result strictly equals true. The
client state is not modified. -/
def dispatchApiEvent (interp : Interp) (st : PMState) (message : Value) : List Effect :=
  let apiEvent := message.getField "event"
  let results := Dispatcher.callHandlers interp st.eventDispatcher
    (apiEvent.getField "name").toKey (eventArgsOf apiEvent)
  if (apiEvent.getField "id").truthy then
    let result := anyMatch results (fun item => item.jsEq (.bool true))
    [.post [("eventId", apiEvent.getField "id"), ("stopEvent", .bool result)]]
  else
    []

/-- Embedding of `onMessageReceived`. Its first statement is
`JSON.parse(event.data)`, which is not wrapped in any try/catch: a frame
whose body is not valid JSON makes the parse throw and the exception
propagate out of the listener, modelled by the `Except.error` case. A parsed
message is handled as an event envelope first, as a response envelope
otherwise, and silently dropped when it is neither (or falsy). -/
def onMessageReceived (interp : Interp) (st : PMState) (parsed : Except Unit Value) :
    Except Unit (PMState × List Effect) :=
  match parsed with
  | .error e => .error e
  | .ok message =>
    if message.truthy then
      if isApiEvent message then
        .ok (st, dispatchApiEvent interp st message)
      else if isApiResponse message then
        .ok (invokeResponseCallback st message)
      else
        .ok (st, [])
    else
      .ok (st, [])

/-- Embedding of `addCallback`: stores the callback pair under the key
"cb-" ++ nextCallbackId and increments the counter, returning the new id. -/
def addCallback (st : PMState) (success failure scope : Value) : PMState × String :=
  let callbackId := "cb-" ++ toString st.nextCallbackId
  ({ st with
      nextCallbackId := st.nextCallbackId + 1
      callbacks := setCallback st.callbacks callbackId ⟨success, failure, scope⟩ },
    callbackId)

/-- Embedding of `sendApiRequest`: registers the pending call, merges the
args object's fields over `{id, method}` and posts the envelope to the
parent frame. -/
def sendApiRequest (st : PMState) (method : String) (success failure scope : Value)
    (args : Option (List (String × Value))) : PMState × List Effect :=
  let r := addCallback st success failure scope
  let message := merge [("id", .str r.2), ("method", .str method)] args
  (r.1, [.post message])

/-- Embedding of the facade operation `getChatRoom` of the post-message
client. -/
def PMState.getChatRoom (st : PMState) (success failure scope : Value) :
    PMState × List Effect :=
  sendApiRequest st "GetChatRoom" success failure scope none

/-- Embedding of the facade operation `sendMessage` of the post-message
client: passes `{message, alert}` as the args object. -/
def PMState.sendMessage (st : PMState) (message : String) (alert : Bool)
    (success failure scope : Value) : PMState × List Effect :=
  sendApiRequest st "SendMessage" success failure scope
    (some [("message", .str message), ("alert", .bool alert)])

/-- Embedding of `getChatRoomAsync` of the post-message client: the promise
wrapper passes the promise's resolve and reject functions as the callback
pair, with no scope. -/
def PMState.getChatRoomAsync (st : PMState) (resolve reject : Value) :
    PMState × List Effect :=
  st.getChatRoom resolve reject .undefined

/-- Embedding of `register`: posts the one-time registration envelope. -/
def registerPost : List Effect := [.post [("method", .str "Register")]]

/-! ### DirectAddInClient -/

/-- The state of a DirectAddInClient relevant to event dispatch. -/
structure DirectState where
  dispatcher : Dispatcher

/-- The three private handler methods of DirectAddInClient whose (unbound)
function references get installed on the host-invoked global callback
slots. -/
inductive SlotTarget where
  | messageReceivedHandler : SlotTarget
  | beforeMessagePostHandler : SlotTarget
  | closingHandler : SlotTarget

/-- The three writable global callback slots the host invokes. Each holds a
bare function reference: the assignment `window.MessagePosting =
this.beforeMessagePostHandler` copies the method reference with no receiver
binding attached. -/
structure GlobalSlots where
  MessageReceived : SlotTarget
  MessagePosting : SlotTarget
  Closing : SlotTarget

/-- Embedding of `registerApiHandlers`, run at construction: assigns the
client's three UNBOUND method references to the three global slots (the
source does not bind or wrap them, unlike the post-message client's arrow
function around its listener). -/
def registerApiHandlers : GlobalSlots :=
  ⟨.messageReceivedHandler, .beforeMessagePostHandler, .closingHandler⟩

/-- The receiver a DirectAddInClient handler method runs against: the client
instance when invoked bound to it, or the global object when the host calls
the installed slot as a plain function (an unbound method reference gives
`this` = the global object, or undefined in strict mode). -/
inductive Receiver where
  | boundTo (st : DirectState) : Receiver
  | globalObject : Receiver

/-- The `this.dispatcher` read the handler bodies perform: the dispatcher
when the receiver is the client instance; undefined (`none`) on the global
object, where the subsequent `callHandlers` member access throws a
TypeError. -/
def thisDispatcher : Receiver → Option Dispatcher
  | .boundTo st => some st.dispatcher
  | .globalObject => none

/-- Embedding of `messageReceivedHandler`: reads `this.dispatcher` and
forwards message and sender under "messagereceived". Invoked with the
global object as receiver — as the installed unbound slot reference is — the
dispatcher member is undefined and the call throws. -/
def messageReceivedHandler (interp : Interp) (self : Receiver)
    (message sender : Value) : Except Unit (List Value) :=
  match thisDispatcher self with
  | none => .error ()
  | some d =>
    .ok (Dispatcher.callHandlers interp d "messagereceived" (some [message, sender]))

/-- Embedding of `beforeMessagePostHandler`: reads `this.dispatcher`,
dispatches the message under "beforemessagesend" and reports suppression
exactly when some handler result strictly equals true; with the global
object as receiver the dispatcher member is undefined and the call throws. -/
def beforeMessagePostHandler (interp : Interp) (self : Receiver)
    (message : Value) : Except Unit Bool :=
  match thisDispatcher self with
  | none => .error ()
  | some d =>
    let results := Dispatcher.callHandlers interp d "beforemessagesend"
      (some [message])
    .ok (anyMatch results (fun item => item.jsEq (.bool true)))

/-- Embedding of `closingHandler`: reads `this.dispatcher` and dispatches
under "closing" with no arguments; with the global object as receiver the
dispatcher member is undefined and the call throws. -/
def closingHandler (interp : Interp) (self : Receiver) :
    Except Unit (List Value) :=
  match thisDispatcher self with
  | none => .error ()
  | some d => .ok (Dispatcher.callHandlers interp d "closing" (some []))

/-- Registration of a before-message-send handler on the direct client. -/
def DirectState.addBeforeMessageSendHandler (st : DirectState)
    (handler scope : Value) : DirectState :=
  ⟨st.dispatcher.addHandler "beforemessagesend" handler scope⟩

/-! ### createAddInClient, the transport selector -/

/-- Whether a value is the undefined value (JS typeof x === "undefined"). -/
def Value.isUndefined : Value → Bool
  | .undefined => true
  | _ => false

/-- The environment-capability snapshot the selector inspects: whether
window.parent is truthy, the outcome of reading the parent's location href
(which throws cross-origin), and the window.external and window.addins
values. -/
structure EnvSnapshot where
  parentPresent : Bool
  parentHrefRead : Except Unit Value
  externalObj : Value
  addins : Value

/-- The isCrossDomain computation of `createAddInClient`: initialized to
true; inside the try block, `parentHref = window.parent && parent.location.href`
and `canAccessParentWindow = window.parent && typeof parentHref !== "undefined"`,
so the page is cross-domain when the parent is absent, the read throws (the
catch leaves true in place) or the href read is undefined. -/
def computeIsCrossDomain (env : EnvSnapshot) : Bool :=
  if !env.parentPresent then
    true
  else
    match env.parentHrefRead with
    | .error _ => true
    | .ok href => href.isUndefined

/-- The two transport implementations the selector can construct. -/
inductive Transport where
  | direct : Transport
  | postMessage : Transport

/-- Embedding of `createAddInClient`: constructs the direct client when
window.external exposes a truthy GetChatRoom, or window.addins does, or the
page is not cross-domain; the post-message client otherwise. -/
def createAddInClient (env : EnvSnapshot) : Transport :=
  if (env.externalObj.truthy && (env.externalObj.getField "GetChatRoom").truthy)
      || (env.addins.truthy && (env.addins.getField "GetChatRoom").truthy)
      || !computeIsCrossDomain env then
    .direct
  else
    .postMessage

/-! ### Public method surfaces

The names of the public methods each declaration defines, transcribed from
the source: the IAddInClient interface (src/src/IAddInClient.ts), the
PostMessageAddInClient class body and the DirectAddInClient class body. -/

/-- The awaitable variants the IAddInClient interface requires. -/
def asyncVariantNames : List String :=
  ["getChatRoomAsync", "getLocalUserDetailsAsync", "getDomainDetailsAsync",
    "getMaxMessageLengthAsync", "sendMessageAsync"]

/-- The methods declared by the IAddInClient interface. -/
def iAddInClientMethods : List String :=
  ["getChatRoom", "getChatRoomAsync", "getLocalUserDetails",
    "getLocalUserDetailsAsync", "getDomainDetails", "getDomainDetailsAsync",
    "getMaxMessageLength", "getMaxMessageLengthAsync", "sendMessage",
    "sendMessageAsync", "addMessageReceivedHandler",
    "addBeforeMessageSendHandler", "addClosingHandler"]

/-- The public methods the PostMessageAddInClient class defines. -/
def postMessageClientMethods : List String :=
  ["getChatRoom", "getChatRoomAsync", "getLocalUserDetails",
    "getLocalUserDetailsAsync", "getDomainDetails", "getDomainDetailsAsync",
    "getMaxMessageLength", "getMaxMessageLengthAsync", "sendMessage",
    "sendMessageAsync", "addMessageReceivedHandler",
    "addBeforeMessageSendHandler", "addClosingHandler", "toString"]

/-- The public methods the DirectAddInClient class defines (it declares
`implements IAddInClient` but its body contains no Async method). -/
def directClientMethods : List String :=
  ["getChatRoom", "getLocalUserDetails", "getDomainDetails",
    "getMaxMessageLength", "sendMessage", "addMessageReceivedHandler",
    "addBeforeMessageSendHandler", "addClosingHandler", "toString"]

/-! ### Concrete scenario inputs used by the witnesses below -/

/-- A handler-function table on which every handler returns undefined. -/
def interp0 : Interp := fun _ _ _ => .undefined

/-- A handler-function table on which function 2 returns true and every
other function returns false (the false, true, false pre-send scenario). -/
def interpFTF : Interp := fun r _ _ => if r == 2 then .bool true else .bool false

/-- A handler-function table on which every handler returns false. -/
def interpFalse : Interp := fun _ _ _ => .bool false

/-- The client state after one request has registered its callback pair
(functions 1 and 2, no scope) under the first allocated id "cb-1". -/
def stW : PMState := (addCallback PMState.initial (.fn 1) (.fn 2) .undefined).1

/-- The inbound response envelope with id "cb-1", success true, result "X". -/
def respX : Value :=
  .obj 20 [("id", .str "cb-1"), ("success", .bool true), ("result", .str "X")]

/-- The inbound response envelope with id "cb-2", success false, result
"boom", and the state holding a pending call under "cb-2". -/
def respBoom : Value :=
  .obj 32 [("id", .str "cb-2"), ("success", .bool false), ("result", .str "boom")]

/-- The client state after two requests: callbacks registered under "cb-1"
and "cb-2". -/
def stW2 : PMState := (addCallback stW (.fn 3) (.fn 4) .undefined).1

/-- A response envelope whose result field is present but falsy (the JSON
value false). -/
def respFalsy : Value :=
  .obj 21 [("id", .str "cb-1"), ("success", .bool true), ("result", .bool false)]

/-- An inbound event envelope carrying the falsy id 0. -/
def evMsgZero : Value :=
  .obj 22 [("event", .obj 23 [("name", .str "presend"), ("args", .arr 24 []),
    ("id", .num 0)])]

/-- An inbound event envelope under the name "presend" with one string
argument and the truthy id 7. -/
def evMsg7 : Value :=
  .obj 25 [("event", .obj 26 [("name", .str "presend"), ("args", .arr 27 [.str "m"]),
    ("id", .num 7)])]

/-- An inbound envelope carrying both a truthy event field and a truthy
top-level id "cb-1". -/
def evMsgBoth : Value :=
  .obj 28 [("event", .obj 29 [("name", .str "e"), ("args", .arr 30 []), ("id", .num 3)]),
    ("id", .str "cb-1")]

/-- A post-message client state with three pre-send handlers (functions 1,
2, 3) registered under "presend" and the pending call of `stW`. -/
def pmW : PMState :=
  { stW with
      eventDispatcher :=
        ((Dispatcher.empty.addHandler "presend" (.fn 1) .undefined).addHandler
          "presend" (.fn 2) .undefined).addHandler "presend" (.fn 3) .undefined }

/-- A direct-client state with three before-message-send handlers
(functions 1, 2, 3). -/
def dsW : DirectState :=
  ⟨((Dispatcher.empty.addHandler "beforemessagesend" (.fn 1) .undefined).addHandler
    "beforemessagesend" (.fn 2) .undefined).addHandler "beforemessagesend" (.fn 3) .undefined⟩

/-- A dispatcher whose "ev" list holds the configuration (function 1, scope
object 5) twice, with (function 2, scope object 5) and (function 1, scope
object 6) in between and after. -/
def dW : Dispatcher :=
  (((Dispatcher.empty.addHandler "ev" (.fn 1) (.obj 5 [])).addHandler
    "ev" (.fn 2) (.obj 5 [])).addHandler "ev" (.fn 1) (.obj 5 [])).addHandler
    "ev" (.fn 1) (.obj 6 [])

/-- An environment snapshot whose parent location is readable and which
exposes no direct-API global. -/
def envReadable : EnvSnapshot :=
  ⟨true, .ok (.str "http://host/page"), .undefined, .undefined⟩

/-- A cross-domain environment snapshot whose external object exposes a
GetChatRoom marker. -/
def envMarker : EnvSnapshot :=
  ⟨false, .error (), .obj 31 [("GetChatRoom", .fn 9)], .undefined⟩

/-- The predicate `removeHandler` matches entries against: handler and scope
both strictly equal to the arguments. -/
def removeMatch (handler scope : Value) (c : HandlerConfig) : Bool :=
  c.handler.jsEq handler && c.scope.jsEq scope

/-! ### Supporting lemmas -/

theorem sliceCopy_eq (args : List Value) : sliceCopy args = args :=
  List.map_id args

theorem callLoop_eq_map (interp : Interp) (hs : List HandlerConfig) (args : List Value) :
    callLoop interp hs args =
      hs.map (fun h => applyFn interp h.handler h.scope args) := by
  induction hs with
  | nil => rfl
  | cons h rest ih => simp [callLoop, sliceCopy_eq, ih]

theorem anyMatch_iff (l : List Value) (p : Value → Bool) :
    anyMatch l p = true ↔ ∃ x ∈ l, p x = true := by
  induction l with
  | nil => simp [anyMatch]
  | cons x rest ih =>
    simp only [anyMatch]
    by_cases hx : p x = true
    · simp [hx]
    · rw [if_neg hx, ih]
      simp only [List.mem_cons]
      constructor
      · rintro ⟨y, hy, hpy⟩
        exact ⟨y, Or.inr hy, hpy⟩
      · rintro ⟨y, hy | hy, hpy⟩
        · exact absurd (hy ▸ hpy) hx
        · exact ⟨y, hy, hpy⟩

theorem jsEq_bool_true_iff (r : Value) :
    r.jsEq (.bool true) = true ↔ r = .bool true := by
  cases r <;> simp [Value.jsEq]

theorem anyMatch_map_bool (bs : List Bool) :
    anyMatch (bs.map Value.bool) (fun item => item.jsEq (.bool true)) =
      bs.any (fun b => b) := by
  induction bs with
  | nil => rfl
  | cons b rest ih =>
    have hf : Value.jsEq (Value.bool false) (Value.bool true) = false := rfl
    have ht : Value.jsEq (Value.bool true) (Value.bool true) = true := rfl
    cases b <;> simp [anyMatch, hf, ht, ih]

theorem lookupCallback_delete (cbs : Callbacks) (key : String) :
    lookupCallback (deleteCallback cbs key) key = none := by
  induction cbs with
  | nil => rfl
  | cons kv rest ih =>
    unfold deleteCallback at ih ⊢
    rw [List.filter_cons]
    by_cases hk : kv.1 = key
    · rw [if_neg (by simp [hk])]
      exact ih
    · rw [if_pos (by simp [hk])]
      unfold lookupCallback at ih ⊢
      rw [List.find?_cons_of_neg _ (by simp [hk])]
      exact ih

theorem truthy_of_getField_truthy (m : Value) (k : String)
    (h : (m.getField k).truthy = true) : m.truthy = true := by
  cases m <;> simp_all [Value.getField, Value.truthy]

theorem removeLoop_eq_filter (handler scope : Value) :
    ∀ (n : Nat) (l : List HandlerConfig) (i : Nat), l.length - i ≤ n →
      removeLoop handler scope l i =
        l.take i ++ (l.drop i).filter (fun c => !removeMatch handler scope c) := by
  intro n
  induction n with
  | zero =>
    intro l i h
    have hle : l.length ≤ i := by omega
    rw [removeLoop]
    rw [dif_neg (by omega)]
    rw [List.take_of_length_le hle, List.drop_eq_nil_of_le hle]
    simp
  | succ n ih =>
    intro l i h
    rw [removeLoop]
    by_cases hlt : i < l.length
    · rw [dif_pos hlt]
      simp only [List.get_eq_getElem]
      have hdrop : l.drop i = l[i] :: l.drop (i + 1) :=
        List.drop_eq_getElem_cons hlt
      by_cases hm : removeMatch handler scope l[i] = true
      · rw [if_pos (by simpa [removeMatch] using hm)]
        have hlen : (l.take i ++ l.drop (i + 1)).length - i ≤ n := by
          simp only [List.length_append, List.length_take, List.length_drop]
          omega
        rw [ih _ i hlen]
        have htk : i ≤ (l.take i).length := by
          simp [List.length_take]
          omega
        have h1 : (l.take i ++ l.drop (i + 1)).take i = l.take i := by
          rw [List.take_append_of_le_length htk, List.take_take]
          simp
        have h2 : (l.take i ++ l.drop (i + 1)).drop i = l.drop (i + 1) := by
          rw [List.drop_append_of_le_length htk]
          rw [List.drop_eq_nil_of_le (by simp)]
          simp
        rw [h1, h2, hdrop, List.filter_cons]
        rw [if_neg (by simp [hm])]
      · have hm' : removeMatch handler scope l[i] = false := by
          simpa using hm
        rw [if_neg (by simpa [removeMatch] using hm)]
        rw [ih l (i + 1) (by omega)]
        rw [hdrop, List.filter_cons, if_pos (by simp [hm'])]
        have htake : l.take (i + 1) = l.take i ++ [l[i]] := by
          rw [List.take_succ, List.getElem?_eq_getElem hlt]
          rfl
        rw [htake, List.append_assoc]
        rfl
    · rw [dif_neg hlt]
      have hle : l.length ≤ i := by omega
      rw [List.take_of_length_le hle, List.drop_eq_nil_of_le hle]
      simp

theorem find?_replace (d : Dispatcher) (n : String) (hs : List HandlerConfig)
    (h : (List.find? (fun p => p.1 == n) d).isSome = true) :
    List.find? (fun p => p.1 == n)
      (d.map (fun p => if p.1 == n then (p.1, hs) else p)) = some (n, hs) := by
  induction d with
  | nil => simp at h
  | cons head tail ih =>
    by_cases hk : head.1 = n
    · simp only [List.map, if_pos (show (head.1 == n) = true by simp [hk])]
      rw [List.find?_cons_of_pos _ (by simp [hk])]
      rw [hk]
    · have hne : (head.1 == n) = false := by simp [hk]
      simp only [List.map, if_neg (show ¬(head.1 == n) = true by simp [hk])]
      rw [List.find?_cons_of_neg _ (by simp [hk])]
      rw [List.find?_cons_of_neg _ (by simp [hk])] at h
      exact ih h

theorem getHandlers_setHandlers_self (d : Dispatcher) (n : String)
    (hs : List HandlerConfig) :
    (d.setHandlers n hs).getHandlers n = some hs := by
  unfold Dispatcher.setHandlers Dispatcher.getHandlers
  by_cases hpres : (List.find? (fun p => p.1 == n) d).isSome = true
  · rw [if_pos hpres, find?_replace d n hs hpres]
    rfl
  · rw [if_neg hpres]
    rw [List.find?_append]
    have hnone : List.find? (fun p => p.1 == n) d = none := by
      cases hfind : List.find? (fun p => p.1 == n) d with
      | none => rfl
      | some v => rw [hfind] at hpres; simp at hpres
    rw [hnone]
    rw [List.find?_cons_of_pos _ (by simp)]
    rfl

theorem find?_map_other (n n2 : String) (hs : List HandlerConfig) (hne : n2 ≠ n) :
    ∀ (dl : Dispatcher),
      List.find? (fun p => p.1 == n2)
        (dl.map (fun p => if p.1 == n then (p.1, hs) else p)) =
      List.find? (fun p => p.1 == n2) dl := by
  intro dl
  induction dl with
  | nil => rfl
  | cons head tail ih =>
    by_cases hkn : head.1 = n
    · have hk2 : head.1 ≠ n2 := by
        rw [hkn]
        exact fun hh => hne hh.symm
      simp only [List.map, if_pos (show (head.1 == n) = true by simp [hkn])]
      rw [List.find?_cons_of_neg _ (by simp [hk2])]
      rw [List.find?_cons_of_neg _ (by simp [hk2])]
      exact ih
    · simp only [List.map, if_neg (show ¬(head.1 == n) = true by simp [hkn])]
      by_cases hk2 : head.1 = n2
      · rw [List.find?_cons_of_pos _ (by simp [hk2])]
        rw [List.find?_cons_of_pos _ (by simp [hk2])]
      · rw [List.find?_cons_of_neg _ (by simp [hk2])]
        rw [List.find?_cons_of_neg _ (by simp [hk2])]
        exact ih

theorem getHandlers_setHandlers_other (d : Dispatcher) (n : String)
    (hs : List HandlerConfig) (n2 : String) (hne : n2 ≠ n) :
    (d.setHandlers n hs).getHandlers n2 = d.getHandlers n2 := by
  unfold Dispatcher.setHandlers Dispatcher.getHandlers
  by_cases hpres : (List.find? (fun p => p.1 == n) d).isSome = true
  · rw [if_pos hpres]
    rw [find?_map_other n n2 hs hne d]
  · rw [if_neg hpres]
    rw [List.find?_append]
    rw [List.find?_cons_of_neg _ (by simp; exact fun hh => hne hh.symm)]
    simp [List.find?]

/-! ### Claim theorems -/

/-- Claim C4: for every event name and argument list, `callHandlers` returns
the empty sequence when no handler list exists for that name; otherwise it
invokes each registered handler exactly once, in registration order, passing
each a (fresh copy of the) argument list bound to that handler's scope, and
returns the handlers' results in the same registration order. The fresh copy
(`slice()`) of an immutable list is the list itself (`sliceCopy_eq`). -/
theorem callHandlers_order_spec (interp : Interp) (d : Dispatcher)
    (eventName : String) (args : Option (List Value)) :
    (d.getHandlers eventName = none →
      Dispatcher.callHandlers interp d eventName args = []) ∧
    ∀ hs, d.getHandlers eventName = some hs →
      (Dispatcher.callHandlers interp d eventName args).length = hs.length ∧
      ∀ i : Nat, (Dispatcher.callHandlers interp d eventName args)[i]? =
        (hs[i]?).map fun c => applyFn interp c.handler c.scope (args.getD []) := by
  constructor
  · intro hnone
    simp only [Dispatcher.callHandlers, hnone]
  · intro hs hsome
    simp only [Dispatcher.callHandlers, hsome]
    rw [callLoop_eq_map]
    constructor
    · exact List.length_map hs _
    · intro i
      exact List.getElem?_map _ hs i

/-- Witness for C4 on a concrete dispatcher: four handlers registered under
"ev" are invoked in order; the second handler's result stands at index 1. -/
theorem callHandlers_order_spec_witness :
    dW.getHandlers "ev" = some [⟨.fn 1, .obj 5 []⟩, ⟨.fn 2, .obj 5 []⟩,
      ⟨.fn 1, .obj 5 []⟩, ⟨.fn 1, .obj 6 []⟩] ∧
    (Dispatcher.callHandlers interpFTF dW "ev" (some [.str "a"])).length = 4 ∧
    (Dispatcher.callHandlers interpFTF dW "ev" (some [.str "a"]))[1]? =
      some (.bool true) ∧
    (Dispatcher.callHandlers interpFTF dW "ev" (some [.str "a"]))[0]? =
      some (.bool false) := by
  have hmain := (callHandlers_order_spec interpFTF dW "ev" (some [.str "a"])).2
    [⟨.fn 1, .obj 5 []⟩, ⟨.fn 2, .obj 5 []⟩, ⟨.fn 1, .obj 5 []⟩, ⟨.fn 1, .obj 6 []⟩] rfl
  refine ⟨rfl, hmain.1, ?_, ?_⟩
  · rw [hmain.2 1]
    rfl
  · rw [hmain.2 0]
    rfl

/-- Claim C9: `removeHandler` removes exactly those entries of the named
event's list whose handler and scope are both strictly equal to the given
arguments (including duplicates), leaves the other entries in order and the
other events' lists untouched, and is a no-op both when no list exists for
the event and when no entry matches. -/
theorem removeHandler_filter_spec (d : Dispatcher) (eventName : String)
    (handler scope : Value) :
    (d.getHandlers eventName = none →
      d.removeHandler eventName handler scope = d) ∧
    ∀ hs, d.getHandlers eventName = some hs →
      ((d.removeHandler eventName handler scope).getHandlers eventName =
        some (hs.filter fun c => !removeMatch handler scope c)) ∧
      (∀ other, other ≠ eventName →
        (d.removeHandler eventName handler scope).getHandlers other =
          d.getHandlers other) ∧
      ((∀ c ∈ hs, removeMatch handler scope c = false) →
        (d.removeHandler eventName handler scope).getHandlers eventName =
          some hs) := by
  constructor
  · intro hnone
    simp only [Dispatcher.removeHandler, hnone]
  · intro hs hsome
    have hloop : removeLoop handler scope hs 0 =
        hs.filter fun c => !removeMatch handler scope c := by
      have := removeLoop_eq_filter handler scope hs.length hs 0 (by omega)
      simpa using this
    refine ⟨?_, ?_, ?_⟩
    · simp only [Dispatcher.removeHandler, hsome]
      rw [hloop]
      exact getHandlers_setHandlers_self d eventName _
    · intro other hne
      simp only [Dispatcher.removeHandler, hsome]
      exact getHandlers_setHandlers_other d eventName _ other hne
    · intro hnomatch
      simp only [Dispatcher.removeHandler, hsome]
      rw [hloop]
      have hfix : (hs.filter fun c => !removeMatch handler scope c) = hs := by
        rw [List.filter_eq_self]
        intro c hc
        simp [hnomatch c hc]
      rw [hfix]
      exact getHandlers_setHandlers_self d eventName hs

/-- Witness for C9 on a concrete dispatcher: removing (function 1, scope
object 5) deletes both duplicate occurrences and keeps the other two entries
in order. -/
theorem removeHandler_filter_spec_witness :
    dW.getHandlers "ev" = some [⟨.fn 1, .obj 5 []⟩, ⟨.fn 2, .obj 5 []⟩,
      ⟨.fn 1, .obj 5 []⟩, ⟨.fn 1, .obj 6 []⟩] ∧
    (dW.removeHandler "ev" (.fn 1) (.obj 5 [])).getHandlers "ev" =
      some [⟨.fn 2, .obj 5 []⟩, ⟨.fn 1, .obj 6 []⟩] := by
  have hmain := ((removeHandler_filter_spec dW "ev" (.fn 1) (.obj 5 [])).2
    [⟨.fn 1, .obj 5 []⟩, ⟨.fn 2, .obj 5 []⟩, ⟨.fn 1, .obj 5 []⟩, ⟨.fn 1, .obj 6 []⟩] rfl).1
  refine ⟨rfl, ?_⟩
  rw [hmain]
  rfl

/-- Claim C1: an inbound response envelope is delivered to at most one
pending call, and that pending call is removed from the table before its
continuation is invoked: the state paired with the continuation effect
already lacks the entry, no pending call remains under the id, at most one
continuation — one of the removed call's own pair, bound to its stored
scope — is invoked, and redelivering the same response to the resulting
state invokes no continuation and leaves the state unchanged. -/
theorem response_single_delivery (st : PMState) (message : Value)
    (cb : CallbackConfig)
    (hid : (message.getField "id").truthy = true)
    (hcb : lookupCallback st.callbacks (message.getField "id").toKey = some cb) :
    ((invokeResponseCallback st message).1.callbacks =
      deleteCallback st.callbacks (message.getField "id").toKey) ∧
    lookupCallback (invokeResponseCallback st message).1.callbacks
      (message.getField "id").toKey = none ∧
    (invokeResponseCallback st message).2.length ≤ 1 ∧
    (∀ e ∈ (invokeResponseCallback st message).2,
      e = .callCont cb.success cb.scope [responseOf message] ∨
      e = .callCont cb.failure cb.scope [responseOf message]) ∧
    invokeResponseCallback (invokeResponseCallback st message).1 message =
      ((invokeResponseCallback st message).1, []) := by
  have hred : invokeResponseCallback st message =
      ({ st with callbacks :=
          deleteCallback st.callbacks (message.getField "id").toKey },
        if (message.getField "success").truthy && cb.success.truthy then
          [.callCont cb.success cb.scope [responseOf message]]
        else if !(message.getField "success").truthy && cb.failure.truthy then
          [.callCont cb.failure cb.scope [responseOf message]]
        else []) := by
    by_cases hS : (message.getField "success").truthy = true <;>
      by_cases hCS : cb.success.truthy = true <;>
        by_cases hCF : cb.failure.truthy = true <;>
          simp [invokeResponseCallback, hid, hcb, hS, hCS, hCF, responseOf]
  have hnone : lookupCallback
      (deleteCallback st.callbacks (message.getField "id").toKey)
      (message.getField "id").toKey = none :=
    lookupCallback_delete st.callbacks (message.getField "id").toKey
  refine ⟨?_, ?_, ?_, ?_, ?_⟩
  · rw [hred]
  · rw [hred]
    exact hnone
  · rw [hred]
    split
    · simp
    · split <;> simp
  · intro e he
    rw [hred] at he
    split at he
    · simp at he
      exact Or.inl he
    · split at he
      · simp at he
        exact Or.inr he
      · simp at he
  · rw [hred]
    simp only [invokeResponseCallback, hid, hnone]
    simp

/-- Witness for C1: the request registered under "cb-1" (state `stW`) and
the response envelope with id "cb-1", success true, result "X": the success
continuation is invoked exactly once with "X", the table no longer holds
"cb-1", and redelivering the identical response invokes nothing and changes
nothing. -/
theorem response_single_delivery_witness :
    ((Value.getField respX "id").truthy = true) ∧
    (lookupCallback stW.callbacks (Value.getField respX "id").toKey =
      some ⟨.fn 1, .fn 2, .undefined⟩) ∧
    (invokeResponseCallback stW respX).2 =
      [.callCont (.fn 1) .undefined [.str "X"]] ∧
    lookupCallback (invokeResponseCallback stW respX).1.callbacks "cb-1" = none ∧
    invokeResponseCallback (invokeResponseCallback stW respX).1 respX =
      ((invokeResponseCallback stW respX).1, []) := by
  refine ⟨rfl, rfl, rfl, ?_, ?_⟩
  · exact (response_single_delivery stW respX ⟨.fn 1, .fn 2, .undefined⟩ rfl rfl).2.1
  · exact (response_single_delivery stW respX ⟨.fn 1, .fn 2, .undefined⟩ rfl rfl).2.2.2.2

/-- Claim C5 counterexample: the response envelope registered under "cb-1"
whose result field is present and equal to the JSON value false makes the
client invoke the success continuation with the empty string, not with that
result value — the empty-string default applies to every falsy result, not
only to an absent one as the claim states. -/
theorem falsy_result_counterexample :
    Value.getField respFalsy "result" = Value.bool false ∧
    (invokeResponseCallback stW respFalsy).2 =
      [.callCont (.fn 1) .undefined [.str ""]] ∧
    (invokeResponseCallback stW respFalsy).2 ≠
      [.callCont (.fn 1) .undefined [.bool false]] := by
  refine ⟨rfl, rfl, ?_⟩
  intro h
  rw [show (invokeResponseCallback stW respFalsy).2 =
    [Effect.callCont (.fn 1) .undefined [.str ""]] from rfl] at h
  simp at h

/-- Claim C5 (amended): when a response envelope's truthy id matches a
pending call whose continuations are both functions, exactly the success
continuation is invoked when the envelope's success field is truthy and
exactly the failure continuation when it is falsy, each applied with the
call's stored scope and passed the envelope's result value when that value
is truthy and the empty string otherwise (an absent or falsy result — false,
0, "", null — defaults to the empty string). -/
theorem response_continuation_spec (st : PMState) (message : Value)
    (cb : CallbackConfig)
    (hid : (message.getField "id").truthy = true)
    (hcb : lookupCallback st.callbacks (message.getField "id").toKey = some cb)
    (hcs : cb.success.truthy = true) (hcf : cb.failure.truthy = true) :
    ((message.getField "success").truthy = true →
      (invokeResponseCallback st message).2 =
        [.callCont cb.success cb.scope
          [if (message.getField "result").truthy then message.getField "result"
            else .str ""]]) ∧
    ((message.getField "success").truthy = false →
      (invokeResponseCallback st message).2 =
        [.callCont cb.failure cb.scope
          [if (message.getField "result").truthy then message.getField "result"
            else .str ""]]) := by
  constructor
  · intro hS
    simp [invokeResponseCallback, hid, hcb, hS, hcs, responseOf]
  · intro hS
    simp [invokeResponseCallback, hid, hcb, hS, hcf, responseOf]

/-- Witness for C5 (amended), the spec's failure-path scenario: the response
with id "cb-2", success false, result "boom" invokes only the failure
continuation of the call registered under "cb-2", with "boom". -/
theorem response_continuation_spec_witness :
    ((Value.getField respBoom "id").truthy = true) ∧
    (lookupCallback stW2.callbacks (Value.getField respBoom "id").toKey =
      some ⟨.fn 3, .fn 4, .undefined⟩) ∧
    ((Value.getField respBoom "success").truthy = false) ∧
    (invokeResponseCallback stW2 respBoom).2 =
      [.callCont (.fn 4) .undefined [.str "boom"]] := by
  refine ⟨rfl, rfl, rfl, ?_⟩
  have hmain := (response_continuation_spec stW2 respBoom
    ⟨.fn 3, .fn 4, .undefined⟩ rfl rfl rfl rfl).2 rfl
  rw [hmain]
  rfl

/-- Claim C2 counterexample: a frame whose body is not valid JSON is not
silently dropped — `JSON.parse` is the listener's first statement and is
wrapped in no try/catch, so the parse exception propagates out of
`onMessageReceived`. -/
theorem malformed_frame_throws_counterexample :
    onMessageReceived interp0 PMState.initial (Except.error ()) =
      Except.error () := rfl

/-- Claim C2 (amended): a frame that parses to JSON of unrecognized shape
(neither a truthy event field nor a truthy id field, including falsy parse
results) is silently dropped: no effect is produced and the transport state
— pending-call table and dispatcher registrations — is returned unchanged.
A frame whose body is not valid JSON instead propagates the parse exception
out of the listener (no state mutation happens before the parse). -/
theorem malformed_frame_spec (interp : Interp) (st : PMState) :
    (∀ e, onMessageReceived interp st (Except.error e) = Except.error e) ∧
    ∀ m, isApiEvent m = false → isApiResponse m = false →
      onMessageReceived interp st (Except.ok m) = Except.ok (st, []) := by
  constructor
  · intro e
    rfl
  · intro m hev hid
    by_cases ht : m.truthy = true
    · simp [onMessageReceived, ht, hev, hid]
    · simp [onMessageReceived, ht]

/-- Witness for C2 (amended): the parsed frame "junk" (valid JSON, neither
shape) is dropped with state unchanged, and a parse failure propagates. -/
theorem malformed_frame_spec_witness :
    isApiEvent (.str "junk") = false ∧ isApiResponse (.str "junk") = false ∧
    onMessageReceived interp0 PMState.initial (Except.ok (.str "junk")) =
      Except.ok (PMState.initial, []) ∧
    onMessageReceived interp0 PMState.initial (Except.error ()) =
      Except.error () := by
  refine ⟨rfl, rfl, ?_, ?_⟩
  · exact (malformed_frame_spec interp0 PMState.initial).2 (.str "junk") rfl rfl
  · exact (malformed_frame_spec interp0 PMState.initial).1 ()

/-- Claim C6 counterexample: the event envelope carrying the falsy id 0 is
dispatched but acknowledged with nothing — the code posts the ack only for a
TRUTHY id, while the claim requires an acknowledgement whenever an id is
carried. -/
theorem event_ack_falsy_id_counterexample :
    isApiEvent evMsgZero = true ∧
    (Value.getField evMsgZero "event").getField "id" = Value.num 0 ∧
    onMessageReceived interp0 PMState.initial (Except.ok evMsgZero) =
      Except.ok (PMState.initial, []) := ⟨rfl, rfl, rfl⟩

/-- Claim C6 (amended): an inbound event envelope is dispatched to the
handlers registered under its name via the dispatcher, and whenever the
envelope carries a TRUTHY id the transport posts back exactly one
acknowledgement (eventId, stopEvent) where stopEvent is true iff at least
one handler result strictly equals boolean true; an envelope whose carried
id is falsy (such as 0) produces no acknowledgement. -/
theorem event_ack_spec (interp : Interp) (st : PMState) (m : Value)
    (hev : isApiEvent m = true)
    (hid : ((m.getField "event").getField "id").truthy = true) :
    ∃ stop : Bool,
      onMessageReceived interp st (Except.ok m) =
        Except.ok (st, [.post [("eventId", (m.getField "event").getField "id"),
          ("stopEvent", .bool stop)]]) ∧
      (stop = true ↔ ∃ r ∈ Dispatcher.callHandlers interp st.eventDispatcher
        ((m.getField "event").getField "name").toKey
        (eventArgsOf (m.getField "event")), r = Value.bool true) := by
  have hm : m.truthy = true :=
    truthy_of_getField_truthy m "event" (by simpa [isApiEvent] using hev)
  refine ⟨anyMatch (Dispatcher.callHandlers interp st.eventDispatcher
    ((m.getField "event").getField "name").toKey
    (eventArgsOf (m.getField "event"))) (fun item => item.jsEq (.bool true)),
    ?_, ?_⟩
  · simp [onMessageReceived, hm, hev, dispatchApiEvent, hid, eventArgsOf]
  · rw [anyMatch_iff]
    constructor
    · rintro ⟨r, hr, hjr⟩
      exact ⟨r, hr, (jsEq_bool_true_iff r).mp hjr⟩
    · rintro ⟨r, hr, hjr⟩
      exact ⟨r, hr, (jsEq_bool_true_iff r).mpr hjr⟩

/-- Witness for C6 (amended): three pre-send handlers returning false, true,
false yield an acknowledged stopEvent of true for the event with id 7; the
all-false table yields stopEvent false. -/
theorem event_ack_spec_witness :
    isApiEvent evMsg7 = true ∧
    ((Value.getField evMsg7 "event").getField "id").truthy = true ∧
    (∃ stop : Bool,
      onMessageReceived interpFTF pmW (Except.ok evMsg7) =
        Except.ok (pmW, [.post [("eventId",
          (Value.getField evMsg7 "event").getField "id"),
          ("stopEvent", .bool stop)]]) ∧
      (stop = true ↔ ∃ r ∈ Dispatcher.callHandlers interpFTF pmW.eventDispatcher
        ((Value.getField evMsg7 "event").getField "name").toKey
        (eventArgsOf (Value.getField evMsg7 "event")), r = Value.bool true)) ∧
    onMessageReceived interpFTF pmW (Except.ok evMsg7) =
      Except.ok (pmW, [.post [("eventId", .num 7), ("stopEvent", .bool true)]]) ∧
    onMessageReceived interpFalse pmW (Except.ok evMsg7) =
      Except.ok (pmW, [.post [("eventId", .num 7), ("stopEvent", .bool false)]]) :=
  ⟨rfl, rfl, event_ack_spec interpFTF pmW evMsg7 rfl rfl, rfl, rfl⟩

/-- Claim C7 counterexample: a page that can read its parent's location and
exposes no direct-API global is given the DIRECT transport (the
not-cross-domain disjunct of the selector fires), not the message transport
the claim's "in particular" clause requires. -/
theorem selector_readable_parent_counterexample :
    computeIsCrossDomain envReadable = false ∧
    envReadable.externalObj = Value.undefined ∧
    envReadable.addins = Value.undefined ∧
    createAddInClient envReadable = Transport.direct := ⟨rfl, rfl, rfl, rfl⟩

/-- Claim C7 (amended): the selector chooses the direct transport iff the
external object exposes a truthy GetChatRoom marker, or the addins global
does, or the page is not cross-domain (parent location readable); only
otherwise does it construct the post-message transport. In particular a
readable parent even with no direct-API globals yields the DIRECT transport,
and a GetChatRoom-bearing global yields the direct transport regardless of
cross-domain status. -/
theorem selector_decision_spec (env : EnvSnapshot) :
    (createAddInClient env = Transport.direct ↔
      ((env.externalObj.truthy &&
          (env.externalObj.getField "GetChatRoom").truthy) = true ∨
        (env.addins.truthy && (env.addins.getField "GetChatRoom").truthy) = true ∨
        computeIsCrossDomain env = false)) ∧
    (createAddInClient env = Transport.postMessage ↔
      ¬((env.externalObj.truthy &&
          (env.externalObj.getField "GetChatRoom").truthy) = true ∨
        (env.addins.truthy && (env.addins.getField "GetChatRoom").truthy) = true ∨
        computeIsCrossDomain env = false)) ∧
    (computeIsCrossDomain env = false →
      createAddInClient env = Transport.direct) ∧
    ((env.externalObj.truthy &&
        (env.externalObj.getField "GetChatRoom").truthy) = true →
      createAddInClient env = Transport.direct) := by
  by_cases h1 : (env.externalObj.truthy &&
      (env.externalObj.getField "GetChatRoom").truthy) = true <;>
    by_cases h2 : (env.addins.truthy &&
        (env.addins.getField "GetChatRoom").truthy) = true <;>
      by_cases h3 : computeIsCrossDomain env = false <;>
        simp [createAddInClient, h1, h2, h3]

/-- Witness for C7 (amended): a cross-domain page whose external object
carries GetChatRoom receives the direct transport regardless. -/
theorem selector_decision_spec_witness :
    computeIsCrossDomain envMarker = true ∧
    (envMarker.externalObj.truthy &&
      (envMarker.externalObj.getField "GetChatRoom").truthy) = true ∧
    createAddInClient envMarker = Transport.direct := by
  refine ⟨rfl, rfl, ?_⟩
  exact (selector_decision_spec envMarker).2.2.2 rfl

/-- Claim C8 (code bug in DirectAddInClient.registerApiHandlers): the
construction-time installation does target the three host-invoked slots
MessageReceived, MessagePosting and Closing with the three handler methods,
but it assigns the UNBOUND method references, so when the host invokes a
slot the receiver is the global object, `this.dispatcher` is undefined, and
the installed handler throws a TypeError instead of forwarding to the
dispatcher or returning the OR of the registered handlers' results. Invoked
against the client instance — the intended binding — the same method bodies
do forward under "messagereceived", "beforemessagesend" and "closing", and
the pre-send one returns true exactly when some handler result strictly
equals true: true for handlers returning false, true, false, and false for
all-false. -/
theorem direct_slots_unbound_this_bug :
    registerApiHandlers.MessageReceived = SlotTarget.messageReceivedHandler ∧
    registerApiHandlers.MessagePosting = SlotTarget.beforeMessagePostHandler ∧
    registerApiHandlers.Closing = SlotTarget.closingHandler ∧
    messageReceivedHandler interpFTF Receiver.globalObject (.str "m") (.str "s") =
      Except.error () ∧
    beforeMessagePostHandler interpFTF Receiver.globalObject (.str "m") =
      Except.error () ∧
    closingHandler interpFTF Receiver.globalObject = Except.error () ∧
    messageReceivedHandler interpFTF (Receiver.boundTo dsW) (.str "m") (.str "s") =
      Except.ok (Dispatcher.callHandlers interpFTF dsW.dispatcher
        "messagereceived" (some [.str "m", .str "s"])) ∧
    beforeMessagePostHandler interpFTF (Receiver.boundTo dsW) (.str "m") =
      Except.ok true ∧
    beforeMessagePostHandler interpFalse (Receiver.boundTo dsW) (.str "m") =
      Except.ok false :=
  ⟨rfl, rfl, rfl, rfl, rfl, rfl, rfl, rfl, rfl⟩

/-- Claim C10: a parsed inbound message carrying both a truthy event field
and a truthy top-level id is handled exclusively as an event envelope: the
listener returns after dispatching, every produced effect is a post to the
parent (never a continuation invocation), and the state — in particular the
pending-call table — is returned unchanged, so any pending call registered
under that id remains registered and un-invoked. -/
theorem event_priority_spec (interp : Interp) (st : PMState) (m : Value)
    (hev : isApiEvent m = true) (_hid : isApiResponse m = true) :
    onMessageReceived interp st (Except.ok m) =
      Except.ok (st, dispatchApiEvent interp st m) ∧
    ∀ e ∈ dispatchApiEvent interp st m, ∃ fields, e = Effect.post fields := by
  constructor
  · have hm : m.truthy = true :=
      truthy_of_getField_truthy m "event" (by simpa [isApiEvent] using hev)
    simp [onMessageReceived, hm, hev]
  · intro e he
    simp only [dispatchApiEvent] at he
    split at he
    · simp at he
      exact ⟨_, he⟩
    · simp at he

/-- Witness for C10: the envelope carrying event (id 3) and top-level id
"cb-1" leaves the state — with its pending call under "cb-1" — unchanged. -/
theorem event_priority_spec_witness :
    isApiEvent evMsgBoth = true ∧ isApiResponse evMsgBoth = true ∧
    onMessageReceived interp0 stW (Except.ok evMsgBoth) =
      Except.ok (stW, dispatchApiEvent interp0 stW evMsgBoth) ∧
    lookupCallback stW.callbacks "cb-1" = some ⟨.fn 1, .fn 2, .undefined⟩ :=
  ⟨rfl, rfl, (event_priority_spec interp0 stW evMsgBoth rfl rfl).1, rfl⟩

/-- Claim C3 (code bug in DirectAddInClient): the IAddInClient interface and
the PostMessageAddInClient class both carry the five awaitable variants, but
the DirectAddInClient class — although it declares implements IAddInClient —
defines none of them, so the direct transport exposes no awaitable variant
of any data-returning operation. -/
theorem direct_client_missing_async_variants :
    asyncVariantNames.all (fun nm => iAddInClientMethods.contains nm) = true ∧
    asyncVariantNames.all (fun nm => postMessageClientMethods.contains nm) = true ∧
    asyncVariantNames.all (fun nm => !directClientMethods.contains nm) = true ∧
    "getChatRoomAsync" ∈ iAddInClientMethods ∧
    "getChatRoomAsync" ∉ directClientMethods := by
  refine ⟨rfl, rfl, rfl, ?_, ?_⟩
  · decide
  · decide

end AddInClient
